import Mathlib

/-!
# Verification of the fluid-simulation core of the portfolio site

Shallow embedding of the staggered-grid incompressible-flow demo from
`src/config/site.ts` (the canonical local-position variant):
an 8×8 pressure grid, an 8×9 horizontal-velocity array, a 9×8
vertical-velocity array, a red-black Gauss-Seidel pressure sweep,
a pressure-gradient velocity projection, and semi-Lagrangian advection
with bilinear sampling.  JavaScript numbers are modelled as rationals.
-/

namespace FluidSim

/-- `gridSize` from the source. -/
def gridSize : ℕ := 8

/-- `DENSITY` from the source (0.6). -/
def DENSITY : ℚ := 6/10

/-- `DELTA_X` from the source (1.0). -/
def DELTA_X : ℚ := 1

/-- `DELTA_TIME` from the source (0.016). -/
def DELTA_TIME : ℚ := 16/1000

/-- Pressure field: `N × N` cells. -/
def PField : Type := Fin 8 → Fin 8 → ℚ

/-- Horizontal velocity samples: `N × (N+1)`, `h row col` sits on the
vertical face between cells `(row, col-1)` and `(row, col)`. -/
def HField : Type := Fin 8 → Fin 9 → ℚ

/-- Vertical velocity samples: `(N+1) × N`. -/
def VField : Type := Fin 9 → Fin 8 → ℚ

instance : DecidableEq PField := by unfold PField; infer_instance
instance : DecidableEq HField := by unfold HField; infer_instance
instance : DecidableEq VField := by unfold VField; infer_instance

/-- The three live arrays of the simulation (`cellValues`,
`horizontalArrows`, `verticalArrows` in the source). -/
structure SimState where
  p : PField
  h : HField
  v : VField
deriving DecidableEq

/-- Read `cellValues[i][j]` at integer indices, 0 outside the grid.
Every in-source read is guarded so the out-of-range default is never used. -/
def pAt (p : PField) (i j : ℤ) : ℚ :=
  if hij : 0 ≤ i ∧ i < 8 ∧ 0 ≤ j ∧ j < 8 then
    p ⟨i.toNat, by omega⟩ ⟨j.toNat, by omega⟩ else 0

/-- Read `horizontalArrows[i][j]` at integer indices, 0 outside. -/
def hAt (h : HField) (i j : ℤ) : ℚ :=
  if hij : 0 ≤ i ∧ i < 8 ∧ 0 ≤ j ∧ j < 9 then
    h ⟨i.toNat, by omega⟩ ⟨j.toNat, by omega⟩ else 0

/-- Read `verticalArrows[i][j]` at integer indices, 0 outside. -/
def vAt (v : VField) (i j : ℤ) : ℚ :=
  if hij : 0 ≤ i ∧ i < 9 ∧ 0 ≤ j ∧ j < 8 then
    v ⟨i.toNat, by omega⟩ ⟨j.toNat, by omega⟩ else 0

/-- Functional update of one pressure cell (the write
`cellValues[row][col] = …`). -/
def updP (p : PField) (row col : Fin 8) (val : ℚ) : PField :=
  fun r c => if r = row ∧ c = col then val else p r c

/-- `CalculatePressure` from the source: recompute the pressure of cell
`(row, col)` from its four pressure neighbours (both horizontal
neighbours replaced by 0 when `col == 0 || col == 7`, both vertical
neighbours when `row == 0 || row == 7`) and the four bounding face
velocities, writing the result in place. -/
def CalculatePressure (s : SimState) (row col : Fin 8) : SimState :=
  let xEdge : Bool := col.val == 0 || col.val == 7
  let yEdge : Bool := row.val == 0 || row.val == 7
  let pLeft : ℚ := if xEdge then 0 else pAt s.p row.val (col.val - 1)
  let pRight : ℚ := if xEdge then 0 else pAt s.p row.val (col.val + 1)
  let pUp : ℚ := if yEdge then 0 else pAt s.p (row.val - 1) col.val
  let pDown : ℚ := if yEdge then 0 else pAt s.p (row.val + 1) col.val
  let vLeft : ℚ := hAt s.h row.val col.val
  let vRight : ℚ := if col.val == 7 then 0 else hAt s.h row.val (col.val + 1)
  let vUp : ℚ := vAt s.v row.val col.val
  let vDown : ℚ := if row.val == 7 then 0 else vAt s.v (row.val + 1) col.val
  let pressure := pLeft + pRight + pUp + pDown
  let velocity := vRight - vLeft + vDown - vUp
  { s with p := updP s.p row col ((pressure - DENSITY * DELTA_X * velocity / DELTA_TIME) / 4) }

/-- All cells in the row-major order of the source's double loops. -/
def cellList : List (Fin 8 × Fin 8) :=
  (List.finRange 8).flatMap fun r => (List.finRange 8).map fun c => (r, c)

/-- `SolvePressureRedBlack` from the source: relax every cell with
`(row + col) & 1 == 0` in row-major order, then every cell with
`(row + col) & 1 == 1`. -/
def SolvePressureRedBlack (s : SimState) : SimState :=
  let red := cellList.filter fun rc => (rc.1.val + rc.2.val) % 2 == 0
  let black := cellList.filter fun rc => (rc.1.val + rc.2.val) % 2 == 1
  (red ++ black).foldl (fun t rc => CalculatePressure t rc.1 rc.2) s

/-!
## Velocity projection

`CalculateVelocities` from the source.  Only its numeric part is modelled:
the trailing `svg.querySelectorAll` block mutates the rendering adapter
(arrow line elements), not the grid state, and is outside the data model.
Each in-place `-=` in the source reads only the pressure field (which the
function never writes) and the sample's own slot, so the loop is embedded
as a per-sample update. -/

/-- Numeric part of `CalculateVelocities`: subtract `k` times the pressure
gradient across each interior face and force boundary faces to zero. -/
def CalculateVelocities (s : SimState) : SimState :=
  let k : ℚ := DELTA_TIME / DENSITY
  { s with
    v := fun row col =>
      if row.val = 0 ∨ row.val = 8 then 0
      else s.v row col - k * (pAt s.p row.val col.val - pAt s.p (row.val - 1) col.val),
    h := fun row col =>
      if col.val = 0 ∨ col.val = 8 then 0
      else s.h row col - k * (pAt s.p row.val col.val - pAt s.p row.val (col.val - 1)) }

/-!
## Bilinear sampling (`lerp`, `GetVelocityXAtLocalPos`,
`GetVelocityYAtLocalPos`)

The canonical local-position variant: indices are obtained with
`Math.floor` and clamped into the valid array range with
`Math.max(lo, Math.min(hi, ·))`; the interpolation weights use the
unclamped `Math.floor`. -/

/-- `lerp` from the source. -/
def lerp (a b t : ℚ) : ℚ := a + (b - a) * t

/-- `Math.max(lo, Math.min(hi, x))` on integers. -/
def clampZ (lo hi x : ℤ) : ℤ := max lo (min hi x)

/-- Read `horizontalArrows[i][j]` returning `none` out of bounds (the
fault the source would hit on an out-of-range access). -/
def hAtO (h : HField) (i j : ℤ) : Option ℚ :=
  if hij : 0 ≤ i ∧ i < 8 ∧ 0 ≤ j ∧ j < 9 then
    some (h ⟨i.toNat, by omega⟩ ⟨j.toNat, by omega⟩) else none

/-- Read `verticalArrows[i][j]` returning `none` out of bounds. -/
def vAtO (v : VField) (i j : ℤ) : Option ℚ :=
  if hij : 0 ≤ i ∧ i < 9 ∧ 0 ≤ j ∧ j < 8 then
    some (v ⟨i.toNat, by omega⟩ ⟨j.toNat, by omega⟩) else none

/-- `GetVelocityXAtLocalPos` from the source: bilinear sample of the
horizontal-velocity array at a grid-local position `(x, y)`. -/
def GetVelocityXAtLocalPos (pos : ℚ × ℚ) (h : HField) : ℚ :=
  let px := pos.1
  let py := pos.2 - 1/2
  let left := clampZ 0 8 ⌊px⌋
  let right := clampZ 0 8 (⌊px⌋ + 1)
  let bottom := clampZ 0 7 ⌊py⌋
  let top := clampZ 0 7 (⌊py⌋ + 1)
  let xFrac := px - ⌊px⌋
  let yFrac := py - ⌊py⌋
  let valueTop := lerp (hAt h top left) (hAt h top right) xFrac
  let valueBottom := lerp (hAt h bottom left) (hAt h bottom right) xFrac
  lerp valueBottom valueTop yFrac

/-- `GetVelocityYAtLocalPos` from the source. -/
def GetVelocityYAtLocalPos (pos : ℚ × ℚ) (v : VField) : ℚ :=
  let px := pos.1 - 1/2
  let py := pos.2
  let left := clampZ 0 7 ⌊px⌋
  let right := clampZ 0 7 (⌊px⌋ + 1)
  let bottom := clampZ 0 8 ⌊py⌋
  let top := clampZ 0 8 (⌊py⌋ + 1)
  let xFrac := px - ⌊px⌋
  let yFrac := py - ⌊py⌋
  let valueTop := lerp (vAt v top left) (vAt v top right) xFrac
  let valueBottom := lerp (vAt v bottom left) (vAt v bottom right) xFrac
  lerp valueBottom valueTop yFrac

/-- `GetVelocityXAtLocalPos` with every array read bounds-checked. -/
def GetVelocityXAtLocalPosChecked (pos : ℚ × ℚ) (h : HField) : Option ℚ := do
  let px := pos.1
  let py := pos.2 - 1/2
  let left := clampZ 0 8 ⌊px⌋
  let right := clampZ 0 8 (⌊px⌋ + 1)
  let bottom := clampZ 0 7 ⌊py⌋
  let top := clampZ 0 7 (⌊py⌋ + 1)
  let xFrac := px - ⌊px⌋
  let yFrac := py - ⌊py⌋
  let vTL ← hAtO h top left
  let vTR ← hAtO h top right
  let vBL ← hAtO h bottom left
  let vBR ← hAtO h bottom right
  pure (lerp (lerp vBL vBR xFrac) (lerp vTL vTR xFrac) yFrac)

/-- `GetVelocityYAtLocalPos` with every array read bounds-checked. -/
def GetVelocityYAtLocalPosChecked (pos : ℚ × ℚ) (v : VField) : Option ℚ := do
  let px := pos.1 - 1/2
  let py := pos.2
  let left := clampZ 0 7 ⌊px⌋
  let right := clampZ 0 7 (⌊px⌋ + 1)
  let bottom := clampZ 0 8 ⌊py⌋
  let top := clampZ 0 8 (⌊py⌋ + 1)
  let xFrac := px - ⌊px⌋
  let yFrac := py - ⌊py⌋
  let vTL ← vAtO v top left
  let vTR ← vAtO v top right
  let vBL ← vAtO v bottom left
  let vBR ← vAtO v bottom right
  pure (lerp (lerp vBL vBR xFrac) (lerp vTL vTR xFrac) yFrac)

/-!
## Semi-Lagrangian advection (`AdvectVelocities`)

The source fills two temporary arrays from the live arrays, then copies
them back, all with element loops.  The four loops are embedded as four
left folds over the sample positions in the source's row-major order. -/

/-- Functional update of one horizontal-velocity sample. -/
def updH (h : HField) (row : Fin 8) (col : Fin 9) (val : ℚ) : HField :=
  fun r c => if r = row ∧ c = col then val else h r c

/-- Functional update of one vertical-velocity sample. -/
def updV (v : VField) (row : Fin 9) (col : Fin 8) (val : ℚ) : VField :=
  fun r c => if r = row ∧ c = col then val else v r c

/-- All vertical-velocity sample positions in source loop order. -/
def vSampleList : List (Fin 9 × Fin 8) :=
  (List.finRange 9).flatMap fun r => (List.finRange 8).map fun c => (r, c)

/-- All horizontal-velocity sample positions in source loop order. -/
def hSampleList : List (Fin 8 × Fin 9) :=
  (List.finRange 8).flatMap fun r => (List.finRange 9).map fun c => (r, c)

/-- Body of the first advection loop: the new value of vertical sample
`(row, col)`, computed from the live arrays. -/
def advectVSample (h : HField) (v : VField) (row : Fin 9) (col : Fin 8) : ℚ :=
  let pos : ℚ × ℚ := ((col.val : ℚ) + 1/2, (row.val : ℚ))
  let velX := GetVelocityXAtLocalPos pos h
  let velY := GetVelocityYAtLocalPos pos v
  GetVelocityYAtLocalPos (pos.1 - DELTA_TIME * velX, pos.2 - DELTA_TIME * velY) v

/-- Body of the second advection loop: the new value of horizontal sample
`(row, col)`. -/
def advectHSample (h : HField) (v : VField) (row : Fin 8) (col : Fin 9) : ℚ :=
  let pos : ℚ × ℚ := ((col.val : ℚ), (row.val : ℚ) + 1/2)
  let velX := GetVelocityXAtLocalPos pos h
  let velY := GetVelocityYAtLocalPos pos v
  GetVelocityXAtLocalPos (pos.1 - DELTA_TIME * velX, pos.2 - DELTA_TIME * velY) h

/-- The live and temporary arrays handed to `AdvectVelocities`
(`horizontalArrows`, `horizontalArrowsTemp`, `verticalArrows`,
`verticalArrowsTemp`). -/
structure AdvectState where
  h : HField
  hT : HField
  v : VField
  vT : VField

/-- First advection loop: fill `verticalArrowsTemp`. -/
def advStepVT (t : AdvectState) (rc : Fin 9 × Fin 8) : AdvectState :=
  { t with vT := updV t.vT rc.1 rc.2 (advectVSample t.h t.v rc.1 rc.2) }

/-- Second advection loop: fill `horizontalArrowsTemp`. -/
def advStepHT (t : AdvectState) (rc : Fin 8 × Fin 9) : AdvectState :=
  { t with hT := updH t.hT rc.1 rc.2 (advectHSample t.h t.v rc.1 rc.2) }

/-- Third advection loop: copy `verticalArrowsTemp` back. -/
def advStepCopyV (t : AdvectState) (rc : Fin 9 × Fin 8) : AdvectState :=
  { t with v := updV t.v rc.1 rc.2 (t.vT rc.1 rc.2) }

/-- Fourth advection loop: copy `horizontalArrowsTemp` back. -/
def advStepCopyH (t : AdvectState) (rc : Fin 8 × Fin 9) : AdvectState :=
  { t with h := updH t.h rc.1 rc.2 (t.hT rc.1 rc.2) }

/-- `AdvectVelocities` from the source: compute both temporary arrays
from the live arrays, then copy them back, in the source's loop order. -/
def AdvectVelocities (a : AdvectState) : AdvectState :=
  let a1 := vSampleList.foldl advStepVT a
  let a2 := hSampleList.foldl advStepHT a1
  let a3 := vSampleList.foldl advStepCopyV a2
  hSampleList.foldl advStepCopyH a3

/-- One simulation tick in the order fixed by the spec:
advect, then one red-black relaxation sweep, then project. -/
def tick (s : SimState) (hT0 : HField) (vT0 : VField) : SimState :=
  let a := AdvectVelocities ⟨s.h, hT0, s.v, vT0⟩
  CalculateVelocities (SolvePressureRedBlack ⟨s.p, a.h, a.v⟩)

/-- The all-zero grid state. -/
def zeroState : SimState := ⟨fun _ _ => 0, fun _ _ => 0, fun _ _ => 0⟩

/-- The all-zero field, horizontal shape. -/
def zeroH : HField := fun _ _ => 0

/-- The all-zero field, vertical shape. -/
def zeroV : VField := fun _ _ => 0

/-- Boundary face velocities are zero: both boundary columns of the
horizontal array and both boundary rows of the vertical array. -/
def BoundaryZero (h : HField) (v : VField) : Prop :=
  (∀ r : Fin 8, h r 0 = 0 ∧ h r 8 = 0) ∧ (∀ c : Fin 8, v 0 c = 0 ∧ v 8 c = 0)

instance (h : HField) (v : VField) : Decidable (BoundaryZero h v) := by
  unfold BoundaryZero
  infer_instance

/-- Pointwise scaling of a whole grid state. -/
def smulState (a : ℚ) (s : SimState) : SimState :=
  ⟨fun r c => a * s.p r c, fun r c => a * s.h r c, fun r c => a * s.v r c⟩

/-- All-zero state except one horizontal velocity sample set to `a`. -/
def unitH (r : Fin 8) (c : Fin 9) (a : ℚ) : SimState :=
  ⟨fun _ _ => 0, fun r' c' => if r' = r ∧ c' = c then a else 0, fun _ _ => 0⟩

/-- The new pressure of cell `(row, col)` as the spec's sentence reads:
each of the four pressure neighbours is zeroed exactly when that
neighbour lies outside the grid.  Stated for comparison with the
source's `CalculatePressure`. -/
def specNewPressure (s : SimState) (row col : Fin 8) : ℚ :=
  let pLeft : ℚ := if 0 < col.val then pAt s.p row.val (col.val - 1) else 0
  let pRight : ℚ := if col.val < 7 then pAt s.p row.val (col.val + 1) else 0
  let pUp : ℚ := if 0 < row.val then pAt s.p (row.val - 1) col.val else 0
  let pDown : ℚ := if row.val < 7 then pAt s.p (row.val + 1) col.val else 0
  let vLeft : ℚ := hAt s.h row.val col.val
  let vRight : ℚ := if col.val = 7 then 0 else hAt s.h row.val (col.val + 1)
  let vUp : ℚ := vAt s.v row.val col.val
  let vDown : ℚ := if row.val = 7 then 0 else vAt s.v (row.val + 1) col.val
  (pLeft + pRight + pUp + pDown
    - DENSITY * DELTA_X * (vRight - vLeft + vDown - vUp) / DELTA_TIME) / 4

/-- A naive simultaneous (Jacobi) sweep as the spec's test sentence
describes it: every cell is recomputed by the same per-cell rule, but
from the pre-sweep pressure values. -/
def jacobiSweep (s : SimState) : SimState :=
  { s with p := fun r c => (CalculatePressure s r c).p r c }

/-- Asymmetric test input: a single unit of pressure in cell `(0, 1)`. -/
def asymState : SimState :=
  ⟨fun r c => if r.val = 0 ∧ c.val = 1 then 1 else 0, fun _ _ => 0, fun _ _ => 0⟩

/-- Test input for claim 1: a single unit of pressure in cell `(3, 6)`. -/
def cex1 : SimState :=
  ⟨fun r c => if r.val = 3 ∧ c.val = 6 then 1 else 0, fun _ _ => 0, fun _ _ => 0⟩

/-- A sample state with nonzero entries everywhere, for witnesses. -/
def wState : SimState :=
  ⟨fun r c => (r.val : ℚ) + 8 * c.val + 1, fun r c => (r.val : ℚ) - c.val,
   fun r c => (r.val : ℚ) * c.val + 2⟩

/-- An advection input whose boundary faces are zero but whose interior
is not, for witnesses. -/
def bState : AdvectState :=
  ⟨fun _ c => if c.val = 0 ∨ c.val = 8 then 0 else 1, zeroH,
   fun r _ => if r.val = 0 ∨ r.val = 8 then 0 else 1, zeroV⟩

/-!
## Basic lemmas about clamping, array reads and `lerp`
-/

lemma clampZ_bounds (lo hi x : ℤ) (h : lo ≤ hi) :
    lo ≤ clampZ lo hi x ∧ clampZ lo hi x ≤ hi := by
  unfold clampZ; omega

lemma hAtO_eq_some (h : HField) (i j : ℤ)
    (hi : 0 ≤ i) (hi8 : i < 8) (hj : 0 ≤ j) (hj9 : j < 9) :
    hAtO h i j = some (hAt h i j) := by
  unfold hAtO hAt
  rw [dif_pos ⟨hi, hi8, hj, hj9⟩, dif_pos ⟨hi, hi8, hj, hj9⟩]

lemma vAtO_eq_some (v : VField) (i j : ℤ)
    (hi : 0 ≤ i) (hi9 : i < 9) (hj : 0 ≤ j) (hj8 : j < 8) :
    vAtO v i j = some (vAt v i j) := by
  unfold vAtO vAt
  rw [dif_pos ⟨hi, hi9, hj, hj8⟩, dif_pos ⟨hi, hi9, hj, hj8⟩]

lemma lerp_same (a t : ℚ) : lerp a a t = a := by unfold lerp; ring

lemma lerp_zero_t (a b : ℚ) : lerp a b 0 = a := by unfold lerp; ring

lemma lerp_zero (t : ℚ) : lerp 0 0 t = 0 := by unfold lerp; ring

lemma hAt_const (a : ℚ) (i j : ℤ)
    (hi : 0 ≤ i) (hi8 : i < 8) (hj : 0 ≤ j) (hj9 : j < 9) :
    hAt (fun _ _ => a) i j = a := by
  unfold hAt; rw [dif_pos ⟨hi, hi8, hj, hj9⟩]

lemma vAt_const (a : ℚ) (i j : ℤ)
    (hi : 0 ≤ i) (hi9 : i < 9) (hj : 0 ≤ j) (hj8 : j < 8) :
    vAt (fun _ _ => a) i j = a := by
  unfold vAt; rw [dif_pos ⟨hi, hi9, hj, hj8⟩]

/-- Bilinear sampling of a constant horizontal field returns the constant
at every position. -/
lemma getX_const (a : ℚ) (pos : ℚ × ℚ) :
    GetVelocityXAtLocalPos pos (fun _ _ => a) = a := by
  simp only [GetVelocityXAtLocalPos]
  obtain ⟨hl1, hl2⟩ := clampZ_bounds 0 8 ⌊pos.1⌋ (by omega)
  obtain ⟨hr1, hr2⟩ := clampZ_bounds 0 8 (⌊pos.1⌋ + 1) (by omega)
  obtain ⟨hb1, hb2⟩ := clampZ_bounds 0 7 ⌊pos.2 - 1/2⌋ (by omega)
  obtain ⟨ht1, ht2⟩ := clampZ_bounds 0 7 (⌊pos.2 - 1/2⌋ + 1) (by omega)
  rw [hAt_const a _ _ ht1 (by omega) hl1 (by omega),
    hAt_const a _ _ ht1 (by omega) hr1 (by omega),
    hAt_const a _ _ hb1 (by omega) hl1 (by omega),
    hAt_const a _ _ hb1 (by omega) hr1 (by omega),
    lerp_same, lerp_same]

/-- Bilinear sampling of a constant vertical field returns the constant
at every position. -/
lemma getY_const (a : ℚ) (pos : ℚ × ℚ) :
    GetVelocityYAtLocalPos pos (fun _ _ => a) = a := by
  simp only [GetVelocityYAtLocalPos]
  obtain ⟨hl1, hl2⟩ := clampZ_bounds 0 7 ⌊pos.1 - 1/2⌋ (by omega)
  obtain ⟨hr1, hr2⟩ := clampZ_bounds 0 7 (⌊pos.1 - 1/2⌋ + 1) (by omega)
  obtain ⟨hb1, hb2⟩ := clampZ_bounds 0 8 ⌊pos.2⌋ (by omega)
  obtain ⟨ht1, ht2⟩ := clampZ_bounds 0 8 (⌊pos.2⌋ + 1) (by omega)
  rw [vAt_const a _ _ ht1 (by omega) hl1 (by omega),
    vAt_const a _ _ ht1 (by omega) hr1 (by omega),
    vAt_const a _ _ hb1 (by omega) hl1 (by omega),
    vAt_const a _ _ hb1 (by omega) hr1 (by omega),
    lerp_same, lerp_same]

/-- The checked horizontal sampler never takes the out-of-bounds branch:
the clamped indices always lie in the array. -/
lemma getX_checked_eq (pos : ℚ × ℚ) (h : HField) :
    GetVelocityXAtLocalPosChecked pos h = some (GetVelocityXAtLocalPos pos h) := by
  simp only [GetVelocityXAtLocalPosChecked, GetVelocityXAtLocalPos]
  obtain ⟨hl1, hl2⟩ := clampZ_bounds 0 8 ⌊pos.1⌋ (by omega)
  obtain ⟨hr1, hr2⟩ := clampZ_bounds 0 8 (⌊pos.1⌋ + 1) (by omega)
  obtain ⟨hb1, hb2⟩ := clampZ_bounds 0 7 ⌊pos.2 - 1/2⌋ (by omega)
  obtain ⟨ht1, ht2⟩ := clampZ_bounds 0 7 (⌊pos.2 - 1/2⌋ + 1) (by omega)
  rw [hAtO_eq_some h _ _ ht1 (by omega) hl1 (by omega),
    hAtO_eq_some h _ _ ht1 (by omega) hr1 (by omega),
    hAtO_eq_some h _ _ hb1 (by omega) hl1 (by omega),
    hAtO_eq_some h _ _ hb1 (by omega) hr1 (by omega)]
  rfl

/-- The checked vertical sampler never takes the out-of-bounds branch. -/
lemma getY_checked_eq (pos : ℚ × ℚ) (v : VField) :
    GetVelocityYAtLocalPosChecked pos v = some (GetVelocityYAtLocalPos pos v) := by
  simp only [GetVelocityYAtLocalPosChecked, GetVelocityYAtLocalPos]
  obtain ⟨hl1, hl2⟩ := clampZ_bounds 0 7 ⌊pos.1 - 1/2⌋ (by omega)
  obtain ⟨hr1, hr2⟩ := clampZ_bounds 0 7 (⌊pos.1 - 1/2⌋ + 1) (by omega)
  obtain ⟨hb1, hb2⟩ := clampZ_bounds 0 8 ⌊pos.2⌋ (by omega)
  obtain ⟨ht1, ht2⟩ := clampZ_bounds 0 8 (⌊pos.2⌋ + 1) (by omega)
  rw [vAtO_eq_some v _ _ ht1 (by omega) hl1 (by omega),
    vAtO_eq_some v _ _ ht1 (by omega) hr1 (by omega),
    vAtO_eq_some v _ _ hb1 (by omega) hl1 (by omega),
    vAtO_eq_some v _ _ hb1 (by omega) hr1 (by omega)]
  rfl

/-!
## The advection folds as pure per-sample maps
-/

lemma mem_vSampleList (rc : Fin 9 × Fin 8) : rc ∈ vSampleList := by
  obtain ⟨r, c⟩ := rc
  simp only [vSampleList, List.mem_flatMap, List.mem_map, List.mem_finRange]
  exact ⟨r, trivial, c, trivial, rfl⟩

lemma mem_hSampleList (rc : Fin 8 × Fin 9) : rc ∈ hSampleList := by
  obtain ⟨r, c⟩ := rc
  simp only [hSampleList, List.mem_flatMap, List.mem_map, List.mem_finRange]
  exact ⟨r, trivial, c, trivial, rfl⟩

/-- The first advection loop touches only `vT`, and fills slot `(r, c)`
with a value computed from the untouched live arrays. -/
lemma foldl_advStepVT (l : List (Fin 9 × Fin 8)) (a : AdvectState) :
    (l.foldl advStepVT a).h = a.h ∧ (l.foldl advStepVT a).v = a.v ∧
    (l.foldl advStepVT a).hT = a.hT ∧
    ∀ r c, (l.foldl advStepVT a).vT r c =
      if (r, c) ∈ l then advectVSample a.h a.v r c else a.vT r c := by
  induction l generalizing a with
  | nil => simp
  | cons k tl ih =>
    simp only [List.foldl_cons]
    obtain ⟨ih1, ih2, ih3, ih4⟩ := ih (advStepVT a k)
    refine ⟨ih1, ih2, ih3, ?_⟩
    intro r c
    rw [ih4 r c]
    simp only [advStepVT, updV, List.mem_cons]
    by_cases h1 : (r, c) ∈ tl
    · simp [h1]
    · by_cases h2 : r = k.1 ∧ c = k.2
      · obtain ⟨h2a, h2b⟩ := h2
        subst h2a; subst h2b
        simp [h1]
      · simp [h1, h2, Prod.ext_iff]

/-- The second advection loop touches only `hT`. -/
lemma foldl_advStepHT (l : List (Fin 8 × Fin 9)) (a : AdvectState) :
    (l.foldl advStepHT a).h = a.h ∧ (l.foldl advStepHT a).v = a.v ∧
    (l.foldl advStepHT a).vT = a.vT ∧
    ∀ r c, (l.foldl advStepHT a).hT r c =
      if (r, c) ∈ l then advectHSample a.h a.v r c else a.hT r c := by
  induction l generalizing a with
  | nil => simp
  | cons k tl ih =>
    simp only [List.foldl_cons]
    obtain ⟨ih1, ih2, ih3, ih4⟩ := ih (advStepHT a k)
    refine ⟨ih1, ih2, ih3, ?_⟩
    intro r c
    rw [ih4 r c]
    simp only [advStepHT, updH, List.mem_cons]
    by_cases h1 : (r, c) ∈ tl
    · simp [h1]
    · by_cases h2 : r = k.1 ∧ c = k.2
      · obtain ⟨h2a, h2b⟩ := h2
        subst h2a; subst h2b
        simp [h1]
      · simp [h1, h2, Prod.ext_iff]

/-- The copy-back loop for vertical samples copies `vT` into `v`. -/
lemma foldl_advStepCopyV (l : List (Fin 9 × Fin 8)) (a : AdvectState) :
    (l.foldl advStepCopyV a).h = a.h ∧ (l.foldl advStepCopyV a).hT = a.hT ∧
    (l.foldl advStepCopyV a).vT = a.vT ∧
    ∀ r c, (l.foldl advStepCopyV a).v r c =
      if (r, c) ∈ l then a.vT r c else a.v r c := by
  induction l generalizing a with
  | nil => simp
  | cons k tl ih =>
    simp only [List.foldl_cons]
    obtain ⟨ih1, ih2, ih3, ih4⟩ := ih (advStepCopyV a k)
    refine ⟨ih1, ih2, ih3, ?_⟩
    intro r c
    rw [ih4 r c]
    simp only [advStepCopyV, updV, List.mem_cons]
    by_cases h1 : (r, c) ∈ tl
    · simp [h1]
    · by_cases h2 : r = k.1 ∧ c = k.2
      · obtain ⟨h2a, h2b⟩ := h2
        subst h2a; subst h2b
        simp [h1]
      · simp [h1, h2, Prod.ext_iff]

/-- The copy-back loop for horizontal samples copies `hT` into `h`. -/
lemma foldl_advStepCopyH (l : List (Fin 8 × Fin 9)) (a : AdvectState) :
    (l.foldl advStepCopyH a).v = a.v ∧ (l.foldl advStepCopyH a).hT = a.hT ∧
    (l.foldl advStepCopyH a).vT = a.vT ∧
    ∀ r c, (l.foldl advStepCopyH a).h r c =
      if (r, c) ∈ l then a.hT r c else a.h r c := by
  induction l generalizing a with
  | nil => simp
  | cons k tl ih =>
    simp only [List.foldl_cons]
    obtain ⟨ih1, ih2, ih3, ih4⟩ := ih (advStepCopyH a k)
    refine ⟨ih1, ih2, ih3, ?_⟩
    intro r c
    rw [ih4 r c]
    simp only [advStepCopyH, updH, List.mem_cons]
    by_cases h1 : (r, c) ∈ tl
    · simp [h1]
    · by_cases h2 : r = k.1 ∧ c = k.2
      · obtain ⟨h2a, h2b⟩ := h2
        subst h2a; subst h2b
        simp [h1]
      · simp [h1, h2, Prod.ext_iff]

/-- `AdvectVelocities` equals the pure per-sample map over the pre-call
arrays: every new sample is `advectHSample`/`advectVSample` of the old
`h` and `v`, and the temporary arrays never leak stale values. -/
lemma advect_eq_pure (a : AdvectState) :
    (AdvectVelocities a).h = (fun r c => advectHSample a.h a.v r c) ∧
    (AdvectVelocities a).v = (fun r c => advectVSample a.h a.v r c) := by
  unfold AdvectVelocities
  obtain ⟨p1h, p1v, p1hT, p1vT⟩ := foldl_advStepVT vSampleList a
  set a1 := vSampleList.foldl advStepVT a with ha1
  obtain ⟨p2h, p2v, p2vT, p2hT⟩ := foldl_advStepHT hSampleList a1
  set a2 := hSampleList.foldl advStepHT a1 with ha2
  obtain ⟨p3h, p3hT, p3vT, p3v⟩ := foldl_advStepCopyV vSampleList a2
  set a3 := vSampleList.foldl advStepCopyV a2 with ha3
  obtain ⟨p4v, p4hT, p4vT, p4h⟩ := foldl_advStepCopyH hSampleList a3
  constructor
  · funext r c
    rw [p4h r c, if_pos (mem_hSampleList (r, c)), p3hT, p2hT r c,
      if_pos (mem_hSampleList (r, c)), p1h, p1v]
  · funext r c
    rw [p4v, p3v r c, if_pos (mem_vSampleList (r, c)), p2vT, p1vT r c,
      if_pos (mem_vSampleList (r, c))]

/-!
## Advection of constant fields
-/

lemma advectVSample_const (a b : ℚ) (r : Fin 9) (c : Fin 8) :
    advectVSample (fun _ _ => a) (fun _ _ => b) r c = b := by
  simp only [advectVSample, getX_const, getY_const]

lemma advectHSample_const (a b : ℚ) (r : Fin 8) (c : Fin 9) :
    advectHSample (fun _ _ => a) (fun _ _ => b) r c = a := by
  simp only [advectHSample, getX_const, getY_const]

/-- Advecting a spatially uniform velocity field leaves it unchanged. -/
lemma advect_const (a b : ℚ) (hT : HField) (vT : VField) :
    (AdvectVelocities ⟨fun _ _ => a, hT, fun _ _ => b, vT⟩).h = (fun _ _ => a) ∧
    (AdvectVelocities ⟨fun _ _ => a, hT, fun _ _ => b, vT⟩).v = (fun _ _ => b) := by
  obtain ⟨e1, e2⟩ := advect_eq_pure ⟨fun _ _ => a, hT, fun _ _ => b, vT⟩
  constructor
  · rw [e1]; funext r c; exact advectHSample_const a b r c
  · rw [e2]; funext r c; exact advectVSample_const a b r c

/-!
## Boundary samples under advection
-/

lemma hAt_col0 (h : HField) (hb : ∀ r, h r 0 = 0) (i : ℤ) : hAt h i 0 = 0 := by
  unfold hAt
  split
  · exact hb _
  · rfl

lemma hAt_col8 (h : HField) (hb : ∀ r, h r 8 = 0) (i : ℤ) : hAt h i 8 = 0 := by
  unfold hAt
  split
  · exact hb _
  · rfl

lemma vAt_row0 (v : VField) (hb : ∀ c, v 0 c = 0) (j : ℤ) : vAt v 0 j = 0 := by
  unfold vAt
  split
  · exact hb _
  · rfl

lemma vAt_row8 (v : VField) (hb : ∀ c, v 8 c = 0) (j : ℤ) : vAt v 8 j = 0 := by
  unfold vAt
  split
  · exact hb _
  · rfl

/-- At `x = 0` the horizontal sampler reads only the zero boundary
column: `xFrac = 0`, so only `left = 0` contributes. -/
lemma getX_at_left (h : HField) (hb : ∀ r, h r 0 = 0) (y : ℚ) :
    GetVelocityXAtLocalPos (0, y) h = 0 := by
  have e0 : clampZ 0 8 (0:ℤ) = 0 := by decide
  simp only [GetVelocityXAtLocalPos, Int.floor_zero, Int.cast_zero, sub_zero, e0,
    lerp_zero_t, hAt_col0 h hb, lerp_zero]

/-- At `x = 8` the horizontal sampler reads only the zero boundary
column 8: `left` and `right` both clamp to 8 and `xFrac = 0`. -/
lemma getX_at_right (h : HField) (hb : ∀ r, h r 8 = 0) (y : ℚ) :
    GetVelocityXAtLocalPos (8, y) h = 0 := by
  have hf : ⌊(8:ℚ)⌋ = 8 := by norm_num
  have e0 : clampZ 0 8 (8:ℤ) = 8 := by decide
  have e1 : clampZ 0 8 ((8:ℤ) + 1) = 8 := by decide
  have e2 : ((8:ℤ):ℚ) = 8 := by norm_num
  simp only [GetVelocityXAtLocalPos, hf, e0, e1, e2, sub_self,
    lerp_zero_t, hAt_col8 h hb, lerp_zero]

/-- At `y = 0` the vertical sampler reads only the zero boundary row. -/
lemma getY_at_bottom (v : VField) (hb : ∀ c, v 0 c = 0) (x : ℚ) :
    GetVelocityYAtLocalPos (x, 0) v = 0 := by
  have e0 : clampZ 0 8 (0:ℤ) = 0 := by decide
  simp only [GetVelocityYAtLocalPos, Int.floor_zero, Int.cast_zero, sub_zero, e0,
    lerp_zero_t, vAt_row0 v hb, lerp_zero]

/-- At `y = 8` the vertical sampler reads only the zero boundary row 8. -/
lemma getY_at_top (v : VField) (hb : ∀ c, v 8 c = 0) (x : ℚ) :
    GetVelocityYAtLocalPos (x, 8) v = 0 := by
  have hf : ⌊(8:ℚ)⌋ = 8 := by norm_num
  have e0 : clampZ 0 8 (8:ℤ) = 8 := by decide
  have e1 : clampZ 0 8 ((8:ℤ) + 1) = 8 := by decide
  have e2 : ((8:ℤ):ℚ) = 8 := by norm_num
  simp only [GetVelocityYAtLocalPos, hf, e0, e1, e2, sub_self,
    lerp_zero_t, vAt_row8 v hb, lerp_zero]

/-- Advecting a horizontal sample on the left boundary keeps it zero:
its own sampled x-velocity is zero, so the backtracked x stays 0. -/
lemma advectHSample_left (h : HField) (v : VField) (hb : ∀ r, h r 0 = 0)
    (row : Fin 8) (col : Fin 9) (hc : col.val = 0) :
    advectHSample h v row col = 0 := by
  simp only [advectHSample, hc]
  rw [show ((0:ℕ):ℚ) = 0 from Nat.cast_zero]
  rw [getX_at_left h hb, show (0:ℚ) - DELTA_TIME * 0 = 0 by ring, getX_at_left h hb]

/-- Advecting a horizontal sample on the right boundary keeps it zero. -/
lemma advectHSample_right (h : HField) (v : VField) (hb : ∀ r, h r 8 = 0)
    (row : Fin 8) (col : Fin 9) (hc : col.val = 8) :
    advectHSample h v row col = 0 := by
  simp only [advectHSample, hc]
  rw [show ((8:ℕ):ℚ) = 8 by norm_num]
  rw [getX_at_right h hb, show (8:ℚ) - DELTA_TIME * 0 = 8 by ring, getX_at_right h hb]

/-- Advecting a vertical sample on the bottom boundary keeps it zero. -/
lemma advectVSample_bottom (h : HField) (v : VField) (hb : ∀ c, v 0 c = 0)
    (row : Fin 9) (col : Fin 8) (hr : row.val = 0) :
    advectVSample h v row col = 0 := by
  simp only [advectVSample, hr]
  rw [show ((0:ℕ):ℚ) = 0 from Nat.cast_zero]
  rw [getY_at_bottom v hb, show (0:ℚ) - DELTA_TIME * 0 = 0 by ring, getY_at_bottom v hb]

/-- Advecting a vertical sample on the top boundary keeps it zero. -/
lemma advectVSample_top (h : HField) (v : VField) (hb : ∀ c, v 8 c = 0)
    (row : Fin 9) (col : Fin 8) (hr : row.val = 8) :
    advectVSample h v row col = 0 := by
  simp only [advectVSample, hr]
  rw [show ((8:ℕ):ℚ) = 8 by norm_num]
  rw [getY_at_top v hb, show (8:ℚ) - DELTA_TIME * 0 = 8 by ring, getY_at_top v hb]

/-!
## The zero state is a fixed point of every phase
-/

lemma pAt_zero (i j : ℤ) : pAt (fun _ _ => 0) i j = 0 := by
  unfold pAt; split <;> rfl

lemma hAt_zero (i j : ℤ) : hAt (fun _ _ => 0) i j = 0 := by
  unfold hAt; split <;> rfl

lemma vAt_zero (i j : ℤ) : vAt (fun _ _ => 0) i j = 0 := by
  unfold vAt; split <;> rfl

lemma calc_zero (r c : Fin 8) : CalculatePressure zeroState r c = zeroState := by
  have h0 : updP (fun _ _ => (0:ℚ)) r c 0 = fun _ _ => (0:ℚ) := by
    funext r' c'
    unfold updP
    split <;> rfl
  simp [CalculatePressure, zeroState, pAt_zero, hAt_zero, vAt_zero, h0]

lemma foldl_calc_zero (l : List (Fin 8 × Fin 8)) :
    l.foldl (fun t rc => CalculatePressure t rc.1 rc.2) zeroState = zeroState := by
  induction l with
  | nil => rfl
  | cons k tl ih => rw [List.foldl_cons, calc_zero]; exact ih

lemma solve_zero : SolvePressureRedBlack zeroState = zeroState := by
  unfold SolvePressureRedBlack
  exact foldl_calc_zero _

lemma calcVel_zero : CalculateVelocities zeroState = zeroState := by
  simp [CalculateVelocities, zeroState, pAt_zero]

/-!
## The pressure sweep does not touch the velocity arrays
-/

lemma foldl_calc_frame (l : List (Fin 8 × Fin 8)) (s : SimState) :
    ((l.foldl (fun t rc => CalculatePressure t rc.1 rc.2) s).h = s.h ∧
     (l.foldl (fun t rc => CalculatePressure t rc.1 rc.2) s).v = s.v) := by
  induction l generalizing s with
  | nil => exact ⟨rfl, rfl⟩
  | cons k tl ih =>
    rw [List.foldl_cons]
    obtain ⟨ih1, ih2⟩ := ih (CalculatePressure s k.1 k.2)
    exact ⟨ih1, ih2⟩

lemma solve_frame (s : SimState) :
    (SolvePressureRedBlack s).h = s.h ∧ (SolvePressureRedBlack s).v = s.v := by
  unfold SolvePressureRedBlack
  exact foldl_calc_frame _ s

/-!
## The pressure sweep is homogeneous of degree one
-/

lemma pAt_smul (a : ℚ) (p : PField) (i j : ℤ) :
    pAt (fun r c => a * p r c) i j = a * pAt p i j := by
  unfold pAt; split <;> simp

lemma hAt_smul (a : ℚ) (h : HField) (i j : ℤ) :
    hAt (fun r c => a * h r c) i j = a * hAt h i j := by
  unfold hAt; split <;> simp

lemma vAt_smul (a : ℚ) (v : VField) (i j : ℤ) :
    vAt (fun r c => a * v r c) i j = a * vAt v i j := by
  unfold vAt; split <;> simp

lemma calc_smul (a : ℚ) (s : SimState) (row col : Fin 8) :
    CalculatePressure (smulState a s) row col = smulState a (CalculatePressure s row col) := by
  simp only [CalculatePressure, smulState]
  rw [SimState.mk.injEq]
  refine ⟨?_, rfl, rfl⟩
  funext r' c'
  simp only [updP]
  by_cases hrc : r' = row ∧ c' = col
  · rw [if_pos hrc]
    simp only [pAt_smul, hAt_smul, vAt_smul]
    split_ifs <;> ring
  · rw [if_neg hrc, if_neg hrc]

lemma foldl_calc_smul (a : ℚ) (l : List (Fin 8 × Fin 8)) (s : SimState) :
    l.foldl (fun t rc => CalculatePressure t rc.1 rc.2) (smulState a s) =
      smulState a (l.foldl (fun t rc => CalculatePressure t rc.1 rc.2) s) := by
  induction l generalizing s with
  | nil => rfl
  | cons k tl ih => rw [List.foldl_cons, List.foldl_cons, calc_smul]; exact ih _

lemma solve_smul (a : ℚ) (s : SimState) :
    SolvePressureRedBlack (smulState a s) = smulState a (SolvePressureRedBlack s) := by
  unfold SolvePressureRedBlack
  exact foldl_calc_smul a _ s

lemma unitH_smul (r : Fin 8) (c : Fin 9) (a : ℚ) :
    unitH r c a = smulState a (unitH r c 1) := by
  unfold unitH smulState
  rw [SimState.mk.injEq]
  refine ⟨by funext r' c'; simp, ?_, by funext r' c'; simp⟩
  funext r' c'
  by_cases hrc : r' = r ∧ c' = c
  · simp [hrc]
  · simp [hrc]

/-- Signs of the two cells adjacent to a unit face impulse, after one
red-black sweep, checked by evaluation for every interior face. -/
lemma solve_unit_sign : ∀ (r : Fin 8) (c : Fin 9), 0 < c.val → ∀ h8 : c.val < 8,
    0 < (SolvePressureRedBlack (unitH r c 1)).p r ⟨c.val, h8⟩ ∧
    (SolvePressureRedBlack (unitH r c 1)).p r ⟨c.val - 1, by omega⟩ < 0 := by
  with_unfolding_all decide

/-!
## Guarded integer reads as direct grid reads
-/

lemma updP_same (p : PField) (row col : Fin 8) (val : ℚ) :
    updP p row col val row col = val := by
  unfold updP
  rw [if_pos ⟨rfl, rfl⟩]

lemma updP_other (p : PField) (row col : Fin 8) (val : ℚ) (r' c' : Fin 8)
    (hne : ¬(r' = row ∧ c' = col)) : updP p row col val r' c' = p r' c' := by
  unfold updP
  rw [if_neg hne]

lemma readP_left (s : SimState) (row col : Fin 8) (h1 : col.val ≠ 0) :
    pAt s.p row.val ((col.val:ℤ) - 1) = s.p row ⟨col.val - 1, by have := col.isLt; omega⟩ := by
  have hr := row.isLt
  have hc := col.isLt
  unfold pAt
  rw [dif_pos (by omega : 0 ≤ ((row.val:ℕ):ℤ) ∧ ((row.val:ℕ):ℤ) < 8 ∧
    0 ≤ (col.val:ℤ) - 1 ∧ (col.val:ℤ) - 1 < 8)]
  exact congrArg₂ s.p (Fin.ext (by dsimp only; omega)) (Fin.ext (by dsimp only; omega))

lemma readP_right (s : SimState) (row col : Fin 8) (h7 : col.val < 7) :
    pAt s.p row.val ((col.val:ℤ) + 1) = s.p row ⟨col.val + 1, by omega⟩ := by
  have hr := row.isLt
  unfold pAt
  rw [dif_pos (by omega : 0 ≤ ((row.val:ℕ):ℤ) ∧ ((row.val:ℕ):ℤ) < 8 ∧
    0 ≤ (col.val:ℤ) + 1 ∧ (col.val:ℤ) + 1 < 8)]
  exact congrArg₂ s.p (Fin.ext (by dsimp only; omega)) (Fin.ext (by dsimp only; omega))

lemma readP_up (s : SimState) (row col : Fin 8) (h1 : row.val ≠ 0) :
    pAt s.p ((row.val:ℤ) - 1) col.val = s.p ⟨row.val - 1, by have := row.isLt; omega⟩ col := by
  have hr := row.isLt
  have hc := col.isLt
  unfold pAt
  rw [dif_pos (by omega : 0 ≤ (row.val:ℤ) - 1 ∧ (row.val:ℤ) - 1 < 8 ∧
    0 ≤ ((col.val:ℕ):ℤ) ∧ ((col.val:ℕ):ℤ) < 8)]
  exact congrArg₂ s.p (Fin.ext (by dsimp only; omega)) (Fin.ext (by dsimp only; omega))

lemma readP_down (s : SimState) (row col : Fin 8) (h7 : row.val < 7) :
    pAt s.p ((row.val:ℤ) + 1) col.val = s.p ⟨row.val + 1, by omega⟩ col := by
  have hc := col.isLt
  unfold pAt
  rw [dif_pos (by omega : 0 ≤ (row.val:ℤ) + 1 ∧ (row.val:ℤ) + 1 < 8 ∧
    0 ≤ ((col.val:ℕ):ℤ) ∧ ((col.val:ℕ):ℤ) < 8)]
  exact congrArg₂ s.p (Fin.ext (by dsimp only; omega)) (Fin.ext (by dsimp only; omega))

lemma readH_cur (s : SimState) (row col : Fin 8) :
    hAt s.h row.val col.val = s.h row ⟨col.val, by have := col.isLt; omega⟩ := by
  have hr := row.isLt
  have hc := col.isLt
  unfold hAt
  rw [dif_pos (by omega : 0 ≤ ((row.val:ℕ):ℤ) ∧ ((row.val:ℕ):ℤ) < 8 ∧
    0 ≤ ((col.val:ℕ):ℤ) ∧ ((col.val:ℕ):ℤ) < 9)]
  exact congrArg₂ s.h (Fin.ext (by dsimp only; omega)) (Fin.ext (by dsimp only; omega))

lemma readH_next (s : SimState) (row col : Fin 8) :
    hAt s.h row.val ((col.val:ℤ) + 1) = s.h row ⟨col.val + 1, by have := col.isLt; omega⟩ := by
  have hr := row.isLt
  have hc := col.isLt
  unfold hAt
  rw [dif_pos (by omega : 0 ≤ ((row.val:ℕ):ℤ) ∧ ((row.val:ℕ):ℤ) < 8 ∧
    0 ≤ (col.val:ℤ) + 1 ∧ (col.val:ℤ) + 1 < 9)]
  exact congrArg₂ s.h (Fin.ext (by dsimp only; omega)) (Fin.ext (by dsimp only; omega))

lemma readV_cur (s : SimState) (row col : Fin 8) :
    vAt s.v row.val col.val = s.v ⟨row.val, by have := row.isLt; omega⟩ col := by
  have hr := row.isLt
  have hc := col.isLt
  unfold vAt
  rw [dif_pos (by omega : 0 ≤ ((row.val:ℕ):ℤ) ∧ ((row.val:ℕ):ℤ) < 9 ∧
    0 ≤ ((col.val:ℕ):ℤ) ∧ ((col.val:ℕ):ℤ) < 8)]
  exact congrArg₂ s.v (Fin.ext (by dsimp only; omega)) (Fin.ext (by dsimp only; omega))

lemma readV_next (s : SimState) (row col : Fin 8) :
    vAt s.v ((row.val:ℤ) + 1) col.val = s.v ⟨row.val + 1, by have := row.isLt; omega⟩ col := by
  have hr := row.isLt
  have hc := col.isLt
  unfold vAt
  rw [dif_pos (by omega : 0 ≤ (row.val:ℤ) + 1 ∧ (row.val:ℤ) + 1 < 9 ∧
    0 ≤ ((col.val:ℕ):ℤ) ∧ ((col.val:ℕ):ℤ) < 8)]
  exact congrArg₂ s.v (Fin.ext (by dsimp only; omega)) (Fin.ext (by dsimp only; omega))

lemma readP_v9 (s : SimState) (row : Fin 9) (col : Fin 8) (h8 : row.val ≠ 8) :
    pAt s.p row.val col.val = s.p ⟨row.val, by have := row.isLt; omega⟩ col := by
  have hr := row.isLt
  have hc := col.isLt
  unfold pAt
  rw [dif_pos (by omega : 0 ≤ ((row.val:ℕ):ℤ) ∧ ((row.val:ℕ):ℤ) < 8 ∧
    0 ≤ ((col.val:ℕ):ℤ) ∧ ((col.val:ℕ):ℤ) < 8)]
  exact congrArg₂ s.p (Fin.ext (by dsimp only; omega)) (Fin.ext (by dsimp only; omega))

lemma readP_v9up (s : SimState) (row : Fin 9) (col : Fin 8) (h0 : row.val ≠ 0) :
    pAt s.p ((row.val:ℤ) - 1) col.val = s.p ⟨row.val - 1, by have := row.isLt; omega⟩ col := by
  have hr := row.isLt
  have hc := col.isLt
  unfold pAt
  rw [dif_pos (by omega : 0 ≤ (row.val:ℤ) - 1 ∧ (row.val:ℤ) - 1 < 8 ∧
    0 ≤ ((col.val:ℕ):ℤ) ∧ ((col.val:ℕ):ℤ) < 8)]
  exact congrArg₂ s.p (Fin.ext (by dsimp only; omega)) (Fin.ext (by dsimp only; omega))

lemma readP_h9 (s : SimState) (row : Fin 8) (col : Fin 9) (h8 : col.val ≠ 8) :
    pAt s.p row.val col.val = s.p row ⟨col.val, by have := col.isLt; omega⟩ := by
  have hr := row.isLt
  have hc := col.isLt
  unfold pAt
  rw [dif_pos (by omega : 0 ≤ ((row.val:ℕ):ℤ) ∧ ((row.val:ℕ):ℤ) < 8 ∧
    0 ≤ ((col.val:ℕ):ℤ) ∧ ((col.val:ℕ):ℤ) < 8)]
  exact congrArg₂ s.p (Fin.ext (by dsimp only; omega)) (Fin.ext (by dsimp only; omega))

lemma readP_h9left (s : SimState) (row : Fin 8) (col : Fin 9) (h0 : col.val ≠ 0) :
    pAt s.p row.val ((col.val:ℤ) - 1) = s.p row ⟨col.val - 1, by have := col.isLt; omega⟩ := by
  have hr := row.isLt
  have hc := col.isLt
  unfold pAt
  rw [dif_pos (by omega : 0 ≤ ((row.val:ℕ):ℤ) ∧ ((row.val:ℕ):ℤ) < 8 ∧
    0 ≤ (col.val:ℤ) - 1 ∧ (col.val:ℤ) - 1 < 8)]
  exact congrArg₂ s.p (Fin.ext (by dsimp only; omega)) (Fin.ext (by dsimp only; omega))

/-!
## The claims
-/

/-- C1 (amended): one call of the pressure update replaces
`pressure[row][col]` by
`(pLeft + pRight + pUp + pDown - density*dx*divergence/dt) / 4` and leaves
every other cell unchanged, where `pLeft` and `pRight` are **both** zero
whenever `col` is an edge column (`col = 0` or `col = N-1`) and otherwise
are the two horizontal neighbours, `pUp` and `pDown` are **both** zero
whenever `row` is an edge row and otherwise are the two vertical
neighbours, and the divergence uses the four bounding face velocities
with the out-of-grid right/down faces read as zero. -/
theorem claim1_pressure_update (s : SimState) (row col : Fin 8) :
    (CalculatePressure s row col).p row col =
      ((if hx : col.val = 0 ∨ col.val = 7 then 0
        else s.p row ⟨col.val - 1, by have := col.isLt; omega⟩ +
             s.p row ⟨col.val + 1, by have := col.isLt; omega⟩) +
       (if hy : row.val = 0 ∨ row.val = 7 then 0
        else s.p ⟨row.val - 1, by have := row.isLt; omega⟩ col +
             s.p ⟨row.val + 1, by have := row.isLt; omega⟩ col) -
       DENSITY * DELTA_X *
         ((if col.val = 7 then 0 else s.h row ⟨col.val + 1, by have := col.isLt; omega⟩) -
          s.h row ⟨col.val, by have := col.isLt; omega⟩ +
          ((if row.val = 7 then 0 else s.v ⟨row.val + 1, by have := row.isLt; omega⟩ col) -
           s.v ⟨row.val, by have := row.isLt; omega⟩ col)) / DELTA_TIME) / 4 ∧
    ∀ r' c' : Fin 8, ¬(r' = row ∧ c' = col) →
      (CalculatePressure s row col).p r' c' = s.p r' c' := by
  have hr := row.isLt
  have hc := col.isLt
  constructor
  · simp only [CalculatePressure]
    rw [updP_same]
    simp only [Bool.or_eq_true, beq_iff_eq]
    rw [readH_cur, readH_next, readV_cur, readV_next]
    by_cases hx : col.val = 0 ∨ col.val = 7 <;> by_cases hy : row.val = 0 ∨ row.val = 7
    · rw [if_pos hx, if_pos hx, if_pos hy, if_pos hy, dif_pos hx, dif_pos hy]
      ring
    · rw [if_pos hx, if_pos hx, if_neg hy, if_neg hy, dif_pos hx, dif_neg hy,
        readP_up s row col (fun h => hy (Or.inl h)), readP_down s row col (by omega)]
      ring
    · rw [if_neg hx, if_neg hx, if_pos hy, if_pos hy, dif_neg hx, dif_pos hy,
        readP_left s row col (fun h => hx (Or.inl h)), readP_right s row col (by omega)]
      ring
    · rw [if_neg hx, if_neg hx, if_neg hy, if_neg hy, dif_neg hx, dif_neg hy,
        readP_left s row col (fun h => hx (Or.inl h)), readP_right s row col (by omega),
        readP_up s row col (fun h => hy (Or.inl h)), readP_down s row col (by omega)]
      ring
  · intro r' c' hne
    simp only [CalculatePressure]
    rw [updP_other s.p row col _ r' c' hne]

/-- C1, counterexample to the claim as stated: at cell `(3, 7)` with a
unit of pressure in the in-grid neighbour `(3, 6)`, the code zeroes
`pLeft` (because `col = 7` makes `xEdge` true) and stores `0`, while the
claim's formula (neighbours zero exactly when outside the grid) demands
`pLeft = pressure[3][6] = 1` and hence `1/4`. -/
theorem claim1_counterexample :
    (CalculatePressure cex1 3 7).p 3 7 ≠ specNewPressure cex1 3 7 := by
  with_unfolding_all decide

/-- C1, witness: the amended per-cell update applied at a concrete state
and cell, frame part instantiated at another cell. -/
theorem claim1_witness :
    (CalculatePressure wState 3 5).p 0 0 = wState.p 0 0 :=
  (claim1_pressure_update wState 3 5).2 0 0 (by decide)

/-- C2 (amended): after `CalculateVelocities` every boundary face
velocity is zero for every input state; after `AdvectVelocities` every
boundary face velocity is zero provided the boundary faces were zero
before the call (advection preserves, but does not establish, the
boundary invariant). -/
theorem claim2_boundary :
    (∀ s : SimState, BoundaryZero (CalculateVelocities s).h (CalculateVelocities s).v) ∧
    (∀ a : AdvectState, BoundaryZero a.h a.v →
      BoundaryZero (AdvectVelocities a).h (AdvectVelocities a).v) := by
  have f0 : (0:Fin 9).val = 0 ∨ (0:Fin 9).val = 8 := Or.inl rfl
  have f8 : (8:Fin 9).val = 0 ∨ (8:Fin 9).val = 8 := Or.inr rfl
  constructor
  · intro s
    constructor
    · intro r
      constructor
      · show (CalculateVelocities s).h r 0 = 0
        simp only [CalculateVelocities]
        rw [if_pos f0]
      · show (CalculateVelocities s).h r 8 = 0
        simp only [CalculateVelocities]
        rw [if_pos f8]
    · intro c
      constructor
      · show (CalculateVelocities s).v 0 c = 0
        simp only [CalculateVelocities]
        rw [if_pos f0]
      · show (CalculateVelocities s).v 8 c = 0
        simp only [CalculateVelocities]
        rw [if_pos f8]
  · intro a hb
    obtain ⟨hbh, hbv⟩ := hb
    obtain ⟨e1, e2⟩ := advect_eq_pure a
    have hh0 : ∀ r, a.h r 0 = 0 := fun r => (hbh r).1
    have hh8 : ∀ r, a.h r 8 = 0 := fun r => (hbh r).2
    have hv0 : ∀ c, a.v 0 c = 0 := fun c => (hbv c).1
    have hv8 : ∀ c, a.v 8 c = 0 := fun c => (hbv c).2
    constructor
    · intro r
      rw [e1]
      exact ⟨advectHSample_left a.h a.v hh0 r 0 rfl,
        advectHSample_right a.h a.v hh8 r 8 rfl⟩
    · intro c
      rw [e2]
      exact ⟨advectVSample_bottom a.h a.v hv0 0 c rfl,
        advectVSample_top a.h a.v hv8 8 c rfl⟩

/-- C2, counterexample to the claim as stated: advection of the uniform
field `hVel ≡ 1` leaves the boundary sample `hVel[0][0]` at `1`, so a
call of `AdvectVelocities` does not zero boundary faces for every input
state. -/
theorem claim2_counterexample :
    (AdvectVelocities ⟨fun _ _ => 1, zeroH, fun _ _ => 0, zeroV⟩).h 0 0 ≠ 0 := by
  rw [(advect_const 1 0 zeroH zeroV).1]
  norm_num

/-- C2, witness: the advection half applied to a state with zero
boundary faces and nonzero interior. -/
theorem claim2_witness :
    BoundaryZero (AdvectVelocities bState).h (AdvectVelocities bState).v :=
  claim2_boundary.2 bState (by with_unfolding_all decide)

/-- C3: the projection updates every interior vertical sample by
`vVel[row][col] -= k*(p[row][col] - p[row-1][col])` with
`k = dt/density`, forces boundary rows to zero, symmetrically updates
horizontal samples with left/right pressure neighbours and boundary
columns forced to zero, and leaves the pressure array unchanged. -/
theorem claim3_projection (s : SimState) :
    (CalculateVelocities s).p = s.p ∧
    (∀ (row : Fin 9) (col : Fin 8), row.val = 0 ∨ row.val = 8 →
      (CalculateVelocities s).v row col = 0) ∧
    (∀ (row : Fin 9) (col : Fin 8) (h0 : row.val ≠ 0) (h8 : row.val ≠ 8),
      (CalculateVelocities s).v row col =
        s.v row col - DELTA_TIME / DENSITY *
          (s.p ⟨row.val, by have := row.isLt; omega⟩ col -
           s.p ⟨row.val - 1, by have := row.isLt; omega⟩ col)) ∧
    (∀ (row : Fin 8) (col : Fin 9), col.val = 0 ∨ col.val = 8 →
      (CalculateVelocities s).h row col = 0) ∧
    (∀ (row : Fin 8) (col : Fin 9) (h0 : col.val ≠ 0) (h8 : col.val ≠ 8),
      (CalculateVelocities s).h row col =
        s.h row col - DELTA_TIME / DENSITY *
          (s.p row ⟨col.val, by have := col.isLt; omega⟩ -
           s.p row ⟨col.val - 1, by have := col.isLt; omega⟩)) := by
  refine ⟨rfl, ?_, ?_, ?_, ?_⟩
  · intro row col hb
    simp only [CalculateVelocities]
    rw [if_pos hb]
  · intro row col h0 h8
    simp only [CalculateVelocities]
    rw [if_neg (by tauto), readP_v9 s row col h8, readP_v9up s row col h0]
  · intro row col hb
    simp only [CalculateVelocities]
    rw [if_pos hb]
  · intro row col h0 h8
    simp only [CalculateVelocities]
    rw [if_neg (by tauto), readP_h9 s row col h8, readP_h9left s row col h0]

/-- C3, witness: the interior vertical update applied at a concrete
state and sample. -/
theorem claim3_witness :
    (CalculateVelocities wState).v 3 2 =
      wState.v 3 2 - DELTA_TIME / DENSITY * (wState.p 3 2 - wState.p 2 2) :=
  (claim3_projection wState).2.2.1 3 2 (by decide) (by decide)

/-- C4: the red-black sweep (all even cells in row-major order, then all
odd cells) differs from the naive simultaneous Jacobi update on an
asymmetric input: with a single unit of pressure at `(0, 1)` the two
sweeps disagree (at cell `(0, 1)` the red-black sweep reads updated even
neighbours and stores `1/16`, the Jacobi update stores `0`). -/
theorem claim4_redblack_not_jacobi :
    SolvePressureRedBlack asymState ≠ jacobiSweep asymState := by
  intro hcontra
  have h2 : (SolvePressureRedBlack asymState).p 0 1 = (jacobiSweep asymState).p 0 1 := by
    rw [hcontra]
  revert h2
  with_unfolding_all decide

/-- C5: the imperative loop-and-copy-back `AdvectVelocities` is
extensionally equal to a pure per-sample map over the pre-call fields:
no sample's new value depends on another sample's new value. -/
theorem claim5_advect_is_pure_map : ∀ a : AdvectState,
    (AdvectVelocities a).h = (fun r c => advectHSample a.h a.v r c) ∧
    (AdvectVelocities a).v = (fun r c => advectVSample a.h a.v r c) :=
  advect_eq_pure

/-- C6: starting from all-zero arrays, one full tick (advect, one
red-black relaxation sweep, project) leaves all three arrays exactly
zero, whatever the initial contents of the temporary arrays. -/
theorem claim6_zero_is_fixed_point :
    ∀ (hT0 : HField) (vT0 : VField), tick zeroState hT0 vT0 = zeroState := by
  intro hT0 vT0
  simp only [tick, zeroState]
  obtain ⟨e1, e2⟩ := advect_const 0 0 hT0 vT0
  rw [e1, e2]
  show CalculateVelocities (SolvePressureRedBlack zeroState) = zeroState
  rw [solve_zero, calcVel_zero]

/-- C7: for any state that is zero except one interior horizontal
sample `hVel[r][c] = a` with `a > 0`, one red-black sweep gives the two
adjacent cells pressures of opposite sign: cell `(r, c)` strictly
positive and cell `(r, c-1)` strictly negative. -/
theorem claim7_single_divergence_signs :
    ∀ (r : Fin 8) (c : Fin 9), 0 < c.val → ∀ h8 : c.val < 8, ∀ a : ℚ, 0 < a →
      0 < (SolvePressureRedBlack (unitH r c a)).p r ⟨c.val, h8⟩ ∧
      (SolvePressureRedBlack (unitH r c a)).p r ⟨c.val - 1, by omega⟩ < 0 := by
  intro r c hc h8 a ha
  have key := solve_unit_sign r c hc h8
  rw [unitH_smul, solve_smul]
  simp only [smulState]
  exact ⟨mul_pos ha key.1, mul_neg_of_pos_of_neg ha key.2⟩

/-- C7, witness: the sweep applied to a unit impulse at face `(3, 4)`. -/
theorem claim7_witness :
    0 < (SolvePressureRedBlack (unitH 3 4 1)).p 3 4 ∧
    (SolvePressureRedBlack (unitH 3 4 1)).p 3 3 < 0 :=
  claim7_single_divergence_signs 3 4 (by decide) (by decide) 1 (by norm_num)

/-- C8: advection leaves every spatially uniform velocity field
(`hVel ≡ a`, `vVel ≡ b`, boundaries included) unchanged, for all values
of the two constants and of the temporary arrays. -/
theorem claim8_uniform_field_invariant : ∀ (a b : ℚ) (hT : HField) (vT : VField),
    (AdvectVelocities ⟨fun _ _ => a, hT, fun _ _ => b, vT⟩).h = (fun _ _ => a) ∧
    (AdvectVelocities ⟨fun _ _ => a, hT, fun _ _ => b, vT⟩).v = (fun _ _ => b) :=
  advect_const

/-- C9: the red-black pressure sweep mutates only the pressure array:
both velocity arrays are unchanged for every input state. -/
theorem claim9_sweep_frame : ∀ s : SimState,
    (SolvePressureRedBlack s).h = s.h ∧ (SolvePressureRedBlack s).v = s.v :=
  solve_frame

/-- C10: for every real sample position (including backtracked
out-of-grid positions) the bounds-checked samplers never take the
out-of-bounds branch: they agree with the total samplers, so
`AdvectVelocities`, which reads the arrays only through these samplers,
never faults. -/
theorem claim10_samplers_in_bounds : ∀ (pos : ℚ × ℚ) (h : HField) (v : VField),
    GetVelocityXAtLocalPosChecked pos h = some (GetVelocityXAtLocalPos pos h) ∧
    GetVelocityYAtLocalPosChecked pos v = some (GetVelocityYAtLocalPos pos v) :=
  fun pos h v => ⟨getX_checked_eq pos h, getY_checked_eq pos v⟩

end FluidSim
